import Mathlib

/-!
Verification of the CityEngine-for-Houdini integration layer against its
natural-language specification. The Lean definitions below are shallow
embeddings of the C++ sources: `HoleConverter.cpp`, `ShapeConverter.cpp`,
`PRTContext.cpp`, `ModelConverter.cpp` and `codec/encoder/HoudiniEncoder.cpp`.
Machine integers (`size_t`, `uint32_t`, `int32_t`) are modelled as `Nat`/`Int`
with explicit `% 2 ^ 64` / `% 2 ^ 32` where overflow matters; fallible code
(array subscripts whose C++ counterpart would be out of bounds) returns
`Option`.
-/

set_option maxHeartbeats 1000000

/-! ## HoleConverter (src/palladio/HoleConverter.cpp)

`Edge` is `std::pair<int64_t, int64_t>`.  The bridge container in the C++
code is a `std::set<Edge, undirectedLessThan>`: two edges compare equivalent
when their canonicalized (sorted) forms agree, so inserting the reversed
direction of an already-stored bridge is a no-op.  The only operations the
algorithm performs on the set are emptiness tests and existential searches
(`std::find_if`), so the set is modelled as a duplicate-free (up to
undirected equivalence) list with insertion order preserved. -/

abbrev Edge := Int × Int

abbrev Edges := List Edge

/-- Canonical form of an edge used by `undirectedLessThan`: `(x, y)` with the
larger component swapped to the back, so `(a,b)` and `(b,a)` compare equal. -/
def canonEdge (e : Edge) : Edge :=
  if e.1 > e.2 then (e.2, e.1) else e

/-- Two edges denote the same undirected point pair. -/
def undirectedEq (a b : Edge) : Bool :=
  canonEdge a == canonEdge b

/-- `bridges.emplace(pointIndexA, pointIndexB)` on the undirected
`std::set`: inserts only when no undirected-equivalent edge is present. -/
def insertBridge (bridges : Edges) (e : Edge) : Edges :=
  if bridges.any (fun b => undirectedEq b e) then bridges else bridges ++ [e]

/-- `HoleConverter::EdgeSource`: directed vertex-index edges of one polygon,
the vertex-index to point-index mapping, and the bridge predicate. -/
structure EdgeSource where
  edges : Edges
  pointIndex : Int → Int
  isBridge : Int → Int → Bool

/-- Loop body of the edge-collection loop in `extractHoles`: a bridge edge
goes (undirected, first-seen direction) into the bridge set, any other edge
is kept as a `(startVertexIndex, endPointIndex)` pair in traversal order. -/
def collectStep (src : EdgeSource) (acc : Edges × Edges) (e : Edge) : Edges × Edges :=
  let pA := src.pointIndex e.1
  let pB := src.pointIndex e.2
  if src.isBridge pA pB then (insertBridge acc.1 (pA, pB), acc.2)
  else (acc.1, acc.2 ++ [(e.1, pB)])

/-- The edge-collection loop of `extractHoles`: returns the pair
(bridge set, `startVertexToEndPointEdges`). -/
def collectEdges (src : EdgeSource) : Edges × Edges :=
  src.edges.foldl (collectStep src) ([], [])

/-- `checkBridgeEnding(EDGE_START, ...)`: does the current edge end at the
start point of some stored bridge? -/
def checkBridgeStart (bridges : Edges) (e : Edge) : Bool :=
  bridges.any (fun br => e.2 == br.1)

/-- `checkBridgeEnding(EDGE_END, ...)`: does the current edge end at the
end point of some stored bridge? -/
def checkBridgeEnd (bridges : Edges) (e : Edge) : Bool :=
  bridges.any (fun br => e.2 == br.2)

/-- `FaceWithHoles`: first ring is the outer face, the rest are holes. -/
abbrev FaceWithHoles := List (List Int)

/-- `info[ringIdx].push_back(v)` with the C++ `std::vector::operator[]`
bounds obligation made explicit: `none` models the out-of-bounds access that
occurs when the ring-stack index has left the valid range (e.g. after the
`size_t` stack pointer wrapped below zero). -/
def appendAt (rings : FaceWithHoles) (i : Int) (v : Int) : Option FaceWithHoles :=
  if 0 ≤ i ∧ i.toNat < rings.length then
    some (rings.set i.toNat (rings.getD i.toNat [] ++ [v]))
  else none

/-- Loop body of `detectFaceAndHoles`: push into a new hole ring when the
edge ends at a bridge start, pop back out when it ends at a bridge end,
otherwise record an ordinary boundary vertex. -/
def detectStep (bridges : Edges) (st : FaceWithHoles × Int) (e : Edge) :
    Option (FaceWithHoles × Int) :=
  if checkBridgeStart bridges e then
    (appendAt st.1 st.2 e.1).map (fun rings => (rings ++ [[]], st.2 + 1))
  else if checkBridgeEnd bridges e then
    (appendAt st.1 st.2 e.1).map (fun rings => (rings, st.2 - 1))
  else
    (appendAt st.1 st.2 e.1).map (fun rings => (rings, st.2))

/-- `HoleConverter::detectFaceAndHoles`: walk the non-bridge edges keeping a
ring-index stack pointer, starting with the single (yet empty) outer ring. -/
def detectFaceAndHoles (bridges : Edges) (svs : Edges) : Option FaceWithHoles :=
  (svs.foldlM (detectStep bridges) ([[]], 0)).map Prod.fst

/-- `HoleConverter::extractHoles`: collect bridges and non-bridge edges; with
no bridges return the single ring of all start-vertex indices in traversal
order, otherwise run the ring-stack walk. -/
def extractHoles (src : EdgeSource) : Option FaceWithHoles :=
  if (collectEdges src).1.isEmpty then some [(collectEdges src).2.map Prod.fst]
  else detectFaceAndHoles (collectEdges src).1 (collectEdges src).2

/-- Concrete bridge-free edge source: a triangle with identity point map. -/
def triSource : EdgeSource where
  edges := [(0, 1), (1, 2), (2, 0)]
  pointIndex := fun i => i
  isBridge := fun _ _ => false

/-- Concrete edge source with two bridges `{0,4}` and `{2,6}`, the second
bridge first traversed in the direction `(2,6)`. -/
def bridgeDirASource : EdgeSource where
  edges := [(0, 4), (2, 6), (10, 0), (11, 6), (12, 13)]
  pointIndex := fun i => i
  isBridge := fun a b => undirectedEq (a, b) (0, 4) || undirectedEq (a, b) (2, 6)

/-- Same edge source as `bridgeDirASource` except that the second bridge is
first traversed in the opposite direction `(6,2)`. -/
def bridgeDirBSource : EdgeSource where
  edges := [(0, 4), (6, 2), (10, 0), (11, 6), (12, 13)]
  pointIndex := fun i => i
  isBridge := fun a b => undirectedEq (a, b) (0, 4) || undirectedEq (a, b) (2, 6)

/-- Concrete edge source for a polygon that resumes the outer ring after
returning from its hole: bridge point pair `{1,4}`, traversed both ways. -/
def holeReturnSource : EdgeSource where
  edges := [(0, 1), (1, 4), (4, 5), (5, 4), (4, 1), (1, 2), (2, 0)]
  pointIndex := fun i => i
  isBridge := fun a b => undirectedEq (a, b) (1, 4)

/-! ## ShapeConverter (src/palladio/ShapeConverter.cpp)

`convertPolygon` exists in two overloads: one for a plain polygon primitive
(`GA_Primitive`, backed by a `GEO_Face` edge source and the hole extraction
above) and one for a polygon-soup constituent polygon
(`GEO_PrimPolySoup::PolygonIterator`).  UV coordinates are only copied, never
computed with, so the coordinate scalar type is a parameter `α` (the C++
code uses `double`). -/

/-- One UV set accumulated by the conversion helper (`struct UV`). -/
structure UVData (α : Type) where
  uvs : List α
  idx : List Nat

/-- `ConversionHelper`: per-partition accumulation of indices, face counts,
hole delimiters and UV sets.  The shared `coords` array is threaded
separately where needed. -/
structure ConversionHelper (α : Type) where
  indices : List Nat
  faceCounts : List Nat
  holes : List Nat
  uvSets : List (UVData α)

/-- A bound 2-component vertex attribute (`GA_ROHandleV2D`); an invalid
handle is modelled as `none` at the use sites. -/
structure UVHandle (α : Type) where
  get : Int → α × α

/-- A plain polygon primitive: its hole-extraction edge source, the
vertex-index to point-index map used for output indices, and the
vertex-index to vertex-offset map used for UV lookups. -/
structure PolyPrim where
  src : EdgeSource
  getPointIndex : Int → Nat
  getVertexOffset : Int → Int

/-- One constituent polygon of a polygon soup
(`GEO_PrimPolySoup::PolygonIterator`). -/
structure SoupPoly where
  vtxCnt : Nat
  getPointIndex : Nat → Nat
  getVertexOffset : Nat → Int

/-- Loop body of the ring loop in the `GA_Primitive` overload of
`convertPolygon`: record the hole-delimiter entry (current index into the
face-count array), the ring's vertex count, and the ring's point indices in
reversed traversal order. -/
def ringStep (prim : PolyPrim) (c : ConversionHelper α) (ring : List Int) :
    ConversionHelper α :=
  { c with
    holes := c.holes ++ [c.faceCounts.length],
    faceCounts := c.faceCounts ++ [ring.length],
    indices := c.indices ++ ring.reverse.map prim.getPointIndex }

/-- Per-ring UV transfer of the `GA_Primitive` overload: push the ring's UV
coordinates in traversal order, then the freshly numbered indices
(`std::iota` from the current index count) in reversed order. -/
def uvAppendRing (uvh : UVHandle α) (prim : PolyPrim) (uvSet : UVData α)
    (ring : List Int) : UVData α :=
  { uvs := uvSet.uvs ++ ring.flatMap (fun j =>
      [(uvh.get (prim.getVertexOffset j)).1, (uvh.get (prim.getVertexOffset j)).2]),
    idx := uvSet.idx ++ ((List.range ring.length).map (fun k => uvSet.idx.length + k)).reverse }

/-- `forEachUVSet` specialised to the `GA_Primitive` overload: each valid
handle's UV set is grown ring by ring, invalid handles are skipped. -/
def forEachUVSetPoly (uvSets : List (UVData α)) (uvHandles : List (Option (UVHandle α)))
    (prim : PolyPrim) (fwh : FaceWithHoles) : List (UVData α) :=
  List.zipWith (fun uvSet oh =>
    match oh with
    | none => uvSet
    | some uvh => fwh.foldl (uvAppendRing uvh prim) uvSet) uvSets uvHandles

/-- `convertPolygon` (GA_Primitive overload): extract the rings, emit one
hole-delimiter entry per ring plus the `uint32_t` sentinel
`0xFFFFFFFF = 4294967295`, emit per-ring face counts and reversed point
indices, then transfer UVs.  `none` models the undefined behaviour of a
ring-stack underflow inside `extractHoles`. -/
def convertPolygonPrim (ch : ConversionHelper α) (prim : PolyPrim)
    (uvHandles : List (Option (UVHandle α))) : Option (ConversionHelper α) :=
  match extractHoles prim.src with
  | none => none
  | some faceWithHoles =>
    let ch1 := faceWithHoles.foldl (ringStep prim) ch
    let ch2 := { ch1 with holes := ch1.holes ++ [4294967295] }
    some { ch2 with uvSets := forEachUVSetPoly ch2.uvSets uvHandles prim faceWithHoles }

/-- Loop body of the reversed UV copy in the polygon-soup overload of
`convertPolygon`. -/
def soupUVStep (uvh : UVHandle α) (prim : SoupPoly) (s : UVData α) (i : Nat) : UVData α :=
  { uvs := s.uvs ++ [(uvh.get (prim.getVertexOffset i)).1, (uvh.get (prim.getVertexOffset i)).2],
    idx := s.idx ++ [s.idx.length] }

/-- `convertPolygon` (PolygonIterator overload): one face count, the point
indices in reversed order, UV data in the same reversed order; no hole
delimiters are produced. -/
def convertPolygonSoup (ch : ConversionHelper α) (prim : SoupPoly)
    (uvHandles : List (Option (UVHandle α))) : ConversionHelper α :=
  let ch1 := { ch with
    faceCounts := ch.faceCounts ++ [prim.vtxCnt],
    indices := ch.indices ++ (List.range prim.vtxCnt).reverse.map prim.getPointIndex }
  { ch1 with uvSets := (List.zipWith (fun uvSet oh =>
      match oh with
      | none => uvSet
      | some uvh => (List.range prim.vtxCnt).reverse.foldl (soupUVStep uvh prim) uvSet)
      ch1.uvSets uvHandles) }

/-- Boost-style `hash_combine` from `Utils.h`, on `size_t` (64-bit)
arithmetic: `seed ^= value + 0x9e3779b9 + (seed << 6) + (seed >> 2)`. -/
def hash_combine (seed value : Nat) : Nat :=
  seed ^^^ ((value + 0x9e3779b9 + seed * 2 ^ 6 + seed / 2 ^ 2) % 2 ^ 64)

/-- Accumulation step of `getCentroid`: add the three coordinates of the
point referenced by one entry of the helper's index array. -/
def centStep (coords : List ℚ) (a : ℚ × ℚ × ℚ) (idx : Nat) : ℚ × ℚ × ℚ :=
  (a.1 + coords.getD (3 * idx) 0, a.2.1 + coords.getD (3 * idx + 1) 0,
   a.2.2 + coords.getD (3 * idx + 2) 0)

/-- `getCentroid`: arithmetic mean of all point coordinates referenced by
the conversion helper's index array (`double` arithmetic modelled as `ℚ`). -/
def getCentroid (coords : List ℚ) (indices : List Nat) : ℚ × ℚ × ℚ :=
  let s := indices.foldl (centStep coords) (0, 0, 0)
  (s.1 / indices.length, s.2.1 / indices.length, s.2.2 / indices.length)

/-- `static_cast<int32_t>` of a `size_t` value (two's-complement wrap). -/
def toInt32 (n : Nat) : Int :=
  if n % 2 ^ 32 < 2 ^ 31 then ((n % 2 ^ 32 : Nat) : Int)
  else ((n % 2 ^ 32 : Nat) : Int) - 2 ^ 32

/-- `getRandomSeed`: `seedAttr` models the value read from an
integer-storage primitive attribute named `PLD_RANDOM_SEED` on the
partition's first primitive (`none` when the attribute is absent or not of
integer storage class); `hashDouble` models the implementation-defined
`std::hash<double>`.  Without an explicit attribute the seed is the
hash-combined centroid hash truncated to 32 bits. -/
def getRandomSeed (seedAttr : Option Int) (hashDouble : ℚ → Nat)
    (coords : List ℚ) (indices : List Nat) : Int :=
  match seedAttr with
  | some v => v
  | none =>
    let centroid := getCentroid coords indices
    let h1 := hash_combine 0 (hashDouble centroid.1)
    let h2 := hash_combine h1 (hashDouble centroid.2.1)
    let h3 := hash_combine h2 (hashDouble centroid.2.2)
    toInt32 h3

/-- The triple of coordinates referenced by one index-array entry (used to
state seed determinism). -/
def refTriple (coords : List ℚ) (i : Nat) : ℚ × ℚ × ℚ :=
  (coords.getD (3 * i) 0, coords.getD (3 * i + 1) 0, coords.getD (3 * i + 2) 0)

/-- Concrete no-hole triangle primitive (host point-index order 0,1,2). -/
def triPrim : PolyPrim where
  src := triSource
  getPointIndex := fun i => i.toNat
  getVertexOffset := fun i => i

/-- Empty conversion helper with no UV sets. -/
def chEmpty : ConversionHelper Unit :=
  { indices := [], faceCounts := [], holes := [], uvSets := [] }

/-! ## PRTContext (src/palladio/PRTContext.cpp)

`PRTContext::getResolveMap` takes the resolve-map cache's lookup result (a
shared map plus `HIT`/`MISS` status — the cache itself lives outside this
translation unit) and, on a miss, flushes the engine's default object cache
(`mPRTCache->flushAll()`, modelled as a flush counter) and — unless compiled
with `PLD_TEST_EXPORTS` — runs `scheduleRecook(rpk)`, one recook-scheduling
pass over the Assign Nodes bound to `rpk` (modelled as recording the path).
The whole body runs under one mutex; the sequential model reflects the
single-threaded critical section. -/

/-- `ResolveMapCache::CacheStatus`. -/
inductive CacheStatus
  | HIT
  | MISS
deriving DecidableEq

/-- Observable engine-side state touched by `getResolveMap`: how often the
default object cache was flushed in full, and which rule-package paths got a
recook-scheduling pass. -/
structure PRTEngineState where
  flushCount : Nat
  recookedPaths : List String
deriving DecidableEq

/-- `PRTContext::getResolveMap`: `testExports` is true exactly for
`PLD_TEST_EXPORTS` builds, where the `scheduleRecook` call is compiled out. -/
def getResolveMap {ρ : Type} (testExports : Bool) (lookupResult : ρ × CacheStatus)
    (rpk : String) (st : PRTEngineState) : ρ × PRTEngineState :=
  match lookupResult.2 with
  | CacheStatus.MISS =>
    let st1 := { st with flushCount := st.flushCount + 1 }
    let st2 := if testExports then st1
               else { st1 with recookedPaths := st1.recookedPaths ++ [rpk] }
    (lookupResult.1, st2)
  | CacheStatus.HIT => (lookupResult.1, st)

/-! ## ModelConverter (src/palladio/ModelConverter.cpp)

Callback state: the per-initial-shape status array `mStatuses` and the log
stream produced through the logging facility.  `prt::Status` is a C enum
with `STATUS_OK = 0`. -/

abbrev PrtStatus := Nat

/-- `prt::STATUS_OK`. -/
def STATUS_OK : PrtStatus := 0

/-- The six log levels of the logging facility. -/
inductive LogLevel
  | ltrace
  | ldebug
  | linfo
  | lwarning
  | lerror
  | lfatal
deriving DecidableEq

/-- Observable `ModelConverter` state for the error and report callbacks. -/
structure MCState where
  statuses : List PrtStatus
  logLines : List (LogLevel × String)
deriving DecidableEq

/-- `ModelConverter::generateError`: log the message at warning severity,
record the status at the shape's index, return `STATUS_OK`. -/
def generateError (st : MCState) (isIndex : Nat) (status : PrtStatus)
    (message : String) : PrtStatus × MCState :=
  (STATUS_OK,
   { st with
     logLines := st.logLines ++ [(LogLevel.lwarning, message)],
     statuses := st.statuses.set isIndex status })

/-- `ModelConverter::cgaReportBool`: a no-op returning `STATUS_OK`. -/
def cgaReportBool (st : MCState) (_isIndex : Nat) (_shapeID : Int) (_key : String)
    (_value : Bool) : PrtStatus × MCState :=
  (STATUS_OK, st)

/-- `ModelConverter::cgaReportFloat`: a no-op returning `STATUS_OK`. -/
def cgaReportFloat (st : MCState) (_isIndex : Nat) (_shapeID : Int) (_key : String)
    (_value : ℚ) : PrtStatus × MCState :=
  (STATUS_OK, st)

/-- `ModelConverter::cgaReportString`: a no-op returning `STATUS_OK`. -/
def cgaReportString (st : MCState) (_isIndex : Nat) (_shapeID : Int) (_key : String)
    (_value : String) : PrtStatus × MCState :=
  (STATUS_OK, st)

/-! ## HoudiniEncoder (src/codec/encoder/HoudiniEncoder.cpp)

Material conversion (`convertMaterialToAttributeMap`) and geometry
serialization (`detail::serializeGeometry`).  The `PRT_VERSION_MAJOR > 1`
compile-time branch is a Boolean parameter `prtVersionGT1`.  Coordinates are
only copied, so their scalar type is again a parameter `α`. -/

/-- The typed value a `prtx::Material` holds under one key: the
`prt::Attributable` scalars/arrays, textures (carrying their URI), or a type
outside the switch (handled by the `default:` case). -/
inductive MatValue
  | vbool (b : Bool)
  | vfloat (q : ℚ)
  | vint (i : Int)
  | vstr (s : String)
  | vboolArray (l : List Bool)
  | vintArray (l : List Int)
  | vfloatArray (l : List ℚ)
  | vstrArray (l : List String)
  | vtexture (uri : String)
  | vtextureArray (uris : List String)
  | vunsupported
deriving DecidableEq

/-- The typed value recorded into the attribute-map builder. -/
inductive AttrValue
  | abool (b : Bool)
  | afloat (q : ℚ)
  | aint (i : Int)
  | astr (s : String)
  | aboolArray (l : List Bool)
  | aintArray (l : List Int)
  | afloatArray (l : List ℚ)
  | astrArray (l : List String)
deriving DecidableEq

/-- The per-key `switch` of `convertMaterialToAttributeMap`: every supported
type is passed through unchanged, textures become their URI string, texture
arrays become URI string arrays, anything else is ignored. -/
def convertEntry : MatValue → Option AttrValue
  | MatValue.vbool b => some (AttrValue.abool b)
  | MatValue.vfloat q => some (AttrValue.afloat q)
  | MatValue.vint i => some (AttrValue.aint i)
  | MatValue.vstr s => some (AttrValue.astr s)
  | MatValue.vboolArray l => some (AttrValue.aboolArray l)
  | MatValue.vintArray l => some (AttrValue.aintArray l)
  | MatValue.vfloatArray l => some (AttrValue.afloatArray l)
  | MatValue.vstrArray l => some (AttrValue.astrArray l)
  | MatValue.vtexture uri => some (AttrValue.astr uri)
  | MatValue.vtextureArray uris => some (AttrValue.astrArray uris)
  | MatValue.vunsupported => none

/-- `MATERIAL_ATTRIBUTE_BLACKLIST`: CGA-style shader channel components and
map-transform sub-keys; on engine versions with `PRT_VERSION_MAJOR > 1` also
the PBR equivalents. -/
def MATERIAL_ATTRIBUTE_BLACKLIST (prtVersionGT1 : Bool) : List String :=
  ["ambient.b", "ambient.g", "ambient.r",
   "bumpmap.rw", "bumpmap.su", "bumpmap.sv", "bumpmap.tu", "bumpmap.tv",
   "color.a", "color.b", "color.g", "color.r", "color.rgb",
   "colormap.rw", "colormap.su", "colormap.sv", "colormap.tu", "colormap.tv",
   "dirtmap.rw", "dirtmap.su", "dirtmap.sv", "dirtmap.tu", "dirtmap.tv",
   "normalmap.rw", "normalmap.su", "normalmap.sv", "normalmap.tu", "normalmap.tv",
   "opacitymap.rw", "opacitymap.su", "opacitymap.sv", "opacitymap.tu", "opacitymap.tv",
   "specular.b", "specular.g", "specular.r",
   "specularmap.rw", "specularmap.su", "specularmap.sv", "specularmap.tu", "specularmap.tv",
   "bumpmap", "colormap", "dirtmap", "normalmap", "opacitymap", "specularmap"] ++
  (if prtVersionGT1 then
    ["opacitymap.mode",
     "emissive.b", "emissive.g", "emissive.r",
     "emissivemap.rw", "emissivemap.su", "emissivemap.sv", "emissivemap.tu", "emissivemap.tv",
     "metallicmap.rw", "metallicmap.su", "metallicmap.sv", "metallicmap.tu", "metallicmap.tv",
     "occlusionmap.rw", "occlusionmap.su", "occlusionmap.sv", "occlusionmap.tu",
     "occlusionmap.tv",
     "roughnessmap.rw", "roughnessmap.su", "roughnessmap.sv", "roughnessmap.tu",
     "roughnessmap.tv",
     "emissivemap", "metallicmap", "occlusionmap", "roughnessmap"]
   else [])

/-- `convertMaterialToAttributeMap`: iterate the material's keys in order,
drop blacklisted keys, record every supported key into the builder. -/
def convertMaterialToAttributeMap (prtVersionGT1 : Bool) (mat : String → MatValue)
    (keys : List String) : List (String × AttrValue) :=
  keys.foldl (fun acc key =>
    if (MATERIAL_ATTRIBUTE_BLACKLIST prtVersionGT1).contains key then acc
    else
      match convertEntry (mat key) with
      | some v => acc ++ [(key, v)]
      | none => acc) []

/-- A `prtx::Texture`: only its validity is observed by the UV scan. -/
structure TextureModel where
  valid : Bool
deriving DecidableEq

/-- A `prtx::Material` as seen by the UV scan: its texture arrays by shader
key. -/
structure MaterialModel where
  textureArrays : String → List TextureModel

/-- `TEXTURE_UV_MAPPINGS`: (shader key, array index, uv set); the four PBR
entries exist only for `PRT_VERSION_MAJOR > 1`. -/
def TEXTURE_UV_MAPPINGS (prtVersionGT1 : Bool) : List (String × Nat × Nat) :=
  [("diffuseMap", 0, 0), ("bumpMap", 0, 1), ("diffuseMap", 1, 2),
   ("specularMap", 0, 3), ("opacityMap", 0, 4), ("normalMap", 0, 5)] ++
  (if prtVersionGT1 then
    [("emissiveMap", 0, 6), ("occlusionMap", 0, 7), ("roughnessMap", 0, 8),
     ("metallicMap", 0, 9)]
   else [])

/-- `scanValidTextures`: the number of UV sets required by the material — one
past the highest UV set whose mapped texture slot holds a valid texture, or
0 when none does (`int8_t highestUVSet = -1` modelled as `Int`). -/
def scanValidTextures (prtVersionGT1 : Bool) (mat : MaterialModel) : Nat :=
  let highest : Int := (TEXTURE_UV_MAPPINGS prtVersionGT1).foldl (fun h t =>
    let ta := mat.textureArrays t.1
    if t.2.1 < ta.length ∧ (ta.getD t.2.1 ⟨false⟩).valid then max h (t.2.2 : Int) else h) (-1)
  if highest < 0 then 0 else (highest + 1).toNat

/-- One UV set of a `prtx::Mesh`: flat coordinates (2 per uv vertex),
per-face uv vertex counts, per-face uv vertex index lists. -/
structure UVSet (α : Type) where
  coords : List α
  faceUVCounts : List Nat
  faceUVIndices : List (List Nat)

/-- A `prtx::Mesh` as read by `serializeGeometry`: flat vertex and normal
coordinates, per-face vertex counts and index lists, per-face vertex-normal
index lists, per-face hole index lists, and the UV sets. -/
structure Mesh (α : Type) where
  vertexCoords : List α
  vertexNormalsCoords : List α
  faceVertexCounts : List Nat
  faceVertexIndices : List (List Nat)
  faceVertexNormalIndices : List (List Nat)
  faceHolesIndices : List (List Nat)
  uvSets : List (UVSet α)

/-- `prtx::Mesh::getFaceCount`. -/
def Mesh.faceCount (m : Mesh α) : Nat :=
  m.faceVertexCounts.length

/-- `prtx::Mesh::getUVCoords`. -/
def Mesh.getUVCoords (m : Mesh α) (s : Nat) : List α :=
  (m.uvSets.getD s ⟨[], [], []⟩).coords

/-- `prtx::Mesh::getFaceUVCounts`. -/
def Mesh.getFaceUVCounts (m : Mesh α) (s : Nat) : List Nat :=
  (m.uvSets.getD s ⟨[], [], []⟩).faceUVCounts

/-- `prtx::Mesh::getFaceUVIndices`. -/
def Mesh.getFaceUVIndices (m : Mesh α) (fi s : Nat) : List Nat :=
  (m.uvSets.getD s ⟨[], [], []⟩).faceUVIndices.getD fi []

/-- UV coordinates one mesh contributes to serialized channel `s`
(`const auto& src = uvs.empty() ? uvs0 : uvs;` in pass 2): the mesh's own
set when present and non-empty, otherwise a copy of its set 0 (or nothing
when the mesh has no UV sets at all). -/
def meshChannelSrc (m : Mesh α) (s : Nat) : List α :=
  let numUVSets := m.uvSets.length
  let u0 := if 0 < numUVSets then m.getUVCoords 0 else []
  let us := if s < numUVSets then m.getUVCoords s else []
  if us.isEmpty then u0 else us

/-- Per-face UV counts one mesh contributes to serialized channel `s`
(`faceUVCounts` in pass 2): the mesh's own counts when channel `s` is a
non-empty own set, otherwise set 0's counts (or all-zero counts when the
mesh has no UV sets). -/
def meshChannelCounts (m : Mesh α) (s : Nat) : List Nat :=
  let numUVSets := m.uvSets.length
  let c0 := if 0 < numUVSets then m.getFaceUVCounts 0
            else List.replicate m.faceCount 0
  let us := if s < numUVSets then m.getUVCoords s else []
  if s < numUVSets ∧ ¬us.isEmpty = true then m.getFaceUVCounts s else c0

/-- UV vertex indices (before adding the channel's running index base) one
mesh contributes to serialized channel `s`: per face, the face's uv indices
in reversed winding, using set 0's indices for backfilled channels. -/
def meshChannelIdxPattern (m : Mesh α) (s : Nat) : List Nat :=
  let numUVSets := m.uvSets.length
  let us := if s < numUVSets then m.getUVCoords s else []
  let counts := meshChannelCounts m s
  ((List.range counts.length).map (fun fi =>
    let idx0 := if 0 < numUVSets then m.getFaceUVIndices fi 0 else []
    let idx := if s < numUVSets ∧ ¬us.isEmpty = true then m.getFaceUVIndices fi s else idx0
    let cnt := counts.getD fi 0
    (List.range cnt).map (fun vi => idx.getD (cnt - vi - 1) 0))).flatten

/-- Vertex indices one mesh contributes (reversed winding, offset by the
running vertex index base). -/
def meshVertexIdxSeq (m : Mesh α) (base : Nat) : List Nat :=
  ((List.range m.faceCount).map (fun fi =>
    let cnt := m.faceVertexCounts.getD fi 0
    let idxs := m.faceVertexIndices.getD fi []
    (List.range cnt).map (fun vi => base + idxs.getD (cnt - vi - 1) 0))).flatten

/-- Vertex-normal indices one mesh contributes (reversed winding, guarded by
`nrmCnt > viReversed`, offset by the running normal index base). -/
def meshNormalIdxSeq (m : Mesh α) (base : Nat) : List Nat :=
  ((List.range m.faceCount).map (fun fi =>
    let cnt := m.faceVertexCounts.getD fi 0
    let nIdxs := m.faceVertexNormalIndices.getD fi []
    (List.range cnt).filterMap (fun vi =>
      if cnt - vi - 1 < nIdxs.length then some (base + nIdxs.getD (cnt - vi - 1) 0)
      else none))).flatten

/-- `detail::SerializedGeometry`: the flat arrays produced by the two-pass
serialization. -/
structure SerializedGeometry (α : Type) where
  coords : List α
  normals : List α
  counts : List Nat
  holeCounts : List Nat
  holeIndices : List Nat
  vertexIndices : List Nat
  normalIndices : List Nat
  uvs : List (List α)
  uvCounts : List (List Nat)
  uvIndices : List (List Nat)

/-- Modelled from the spec: the `SerializedGeometry` constructor lives in
`HoudiniEncoder.h`, which is not part of the available sources.  Per §3 of
the specification the structure carries, "per UV channel (0..N-1, N = the
maximum UV-set count referenced across all generated meshes or required by
any valid textured material slot)", flat UV coordinate/count/index arrays;
accordingly the constructor creates `maxNumUVSets` empty channels (this also
matches pass 2, which loops `uvSet` over `sg.uvs.size()` and sizes
`uvIndexBases` with `maxNumUVSets`). -/
def SerializedGeometry.init (maxNumUVSets : Nat) : SerializedGeometry α :=
  { coords := [], normals := [], counts := [], holeCounts := [], holeIndices := [],
    vertexIndices := [], normalIndices := [],
    uvs := List.replicate maxNumUVSets [],
    uvCounts := List.replicate maxNumUVSets [],
    uvIndices := List.replicate maxNumUVSets [] }

/-- The running state of pass 2: the serialized geometry plus the vertex,
normal, face and per-channel uv index bases. -/
structure CopyState (α : Type) where
  sg : SerializedGeometry α
  vertexIndexBase : Nat
  normalIndexBase : Nat
  faceIndexBase : Nat
  uvIndexBases : List Nat

/-- The body of pass 2 for one mesh: append points, normals, per-channel UV
data (coordinates, counts, base-offset indices), face counts, reversed
vertex/normal indices and hole data, then advance all index bases. -/
def appendMesh (st : CopyState α) (m : Mesh α) : CopyState α :=
  let sg := st.sg
  let nChan := sg.uvs.length
  { sg := {
      coords := sg.coords ++ m.vertexCoords,
      normals := sg.normals ++ m.vertexNormalsCoords,
      counts := sg.counts ++ m.faceVertexCounts,
      holeCounts := sg.holeCounts ++ (List.range m.faceCount).map (fun fi =>
        (m.faceHolesIndices.getD fi []).length),
      holeIndices := sg.holeIndices ++ ((List.range m.faceCount).map (fun fi =>
        (m.faceHolesIndices.getD fi []).map (fun h => h + st.faceIndexBase))).flatten,
      vertexIndices := sg.vertexIndices ++ meshVertexIdxSeq m st.vertexIndexBase,
      normalIndices := sg.normalIndices ++ meshNormalIdxSeq m st.normalIndexBase,
      uvs := (List.range nChan).map (fun s => sg.uvs.getD s [] ++ meshChannelSrc m s),
      uvCounts := (List.range nChan).map (fun s =>
        sg.uvCounts.getD s [] ++ meshChannelCounts m s),
      uvIndices := (List.range nChan).map (fun s =>
        sg.uvIndices.getD s [] ++
          (meshChannelIdxPattern m s).map (fun i => st.uvIndexBases.getD s 0 + i)) },
    vertexIndexBase := st.vertexIndexBase + m.vertexCoords.length / 3,
    normalIndexBase := st.normalIndexBase + m.vertexNormalsCoords.length / 3,
    faceIndexBase := st.faceIndexBase + m.faceCount,
    uvIndexBases := (List.range nChan).map (fun s =>
      st.uvIndexBases.getD s 0 + (meshChannelSrc m s).length / 2) }

/-- Pass 1's UV-channel count: the maximum, over all meshes of all
geometries (materials iterated in lockstep), of the larger of the mesh's own
UV-set count and the UV sets required by its material's valid textures. -/
def maxNumUVSets (prtVersionGT1 : Bool) (geometries : List (List (Mesh α)))
    (materials : List (List MaterialModel)) : Nat :=
  (((geometries.zip materials).map (fun gm =>
    (gm.1.zip gm.2).map (fun mm =>
      max mm.1.uvSets.length (scanValidTextures prtVersionGT1 mm.2)))).flatten).foldl max 0

/-- `detail::serializeGeometry`: pass 1 sizes the channel count, pass 2 folds
`appendMesh` over every mesh of every geometry. -/
def serializeGeometry (prtVersionGT1 : Bool) (geometries : List (List (Mesh α)))
    (materials : List (List MaterialModel)) : SerializedGeometry α :=
  let maxN := maxNumUVSets prtVersionGT1 geometries materials
  (geometries.flatten.foldl appendMesh
    { sg := SerializedGeometry.init maxN, vertexIndexBase := 0, normalIndexBase := 0,
      faceIndexBase := 0, uvIndexBases := List.replicate maxN 0 }).sg

/-- Concrete material with no textures. -/
def matNoTex : MaterialModel :=
  { textureArrays := fun _ => [] }

/-- Concrete mesh with one triangle face and UV set 0 only. -/
def meshOneUV : Mesh Nat :=
  { vertexCoords := [10, 11, 12, 20, 21, 22, 30, 31, 32],
    vertexNormalsCoords := [],
    faceVertexCounts := [3],
    faceVertexIndices := [[0, 1, 2]],
    faceVertexNormalIndices := [[]],
    faceHolesIndices := [[]],
    uvSets := [⟨[1, 2, 3, 4, 5, 6], [3], [[0, 1, 2]]⟩] }

/-- Concrete mesh with one triangle face and UV sets 0 and 1. -/
def meshTwoUV : Mesh Nat :=
  { vertexCoords := [40, 41, 42, 50, 51, 52, 60, 61, 62],
    vertexNormalsCoords := [],
    faceVertexCounts := [3],
    faceVertexIndices := [[0, 1, 2]],
    faceVertexNormalIndices := [[]],
    faceHolesIndices := [[]],
    uvSets := [⟨[1, 2, 3, 4, 5, 6], [3], [[0, 1, 2]]⟩,
               ⟨[7, 8, 9, 10, 11, 12], [3], [[2, 0, 1]]⟩] }

/-- Concrete pass-2 state with two empty UV channels. -/
def stTwoChannels : CopyState Nat :=
  { sg := SerializedGeometry.init 2, vertexIndexBase := 0, normalIndexBase := 0,
    faceIndexBase := 0, uvIndexBases := List.replicate 2 0 }

-- THEOREMS

/-- Helper: collecting over a list with no bridge edges leaves the bridge
accumulator unchanged and appends every `(startVertex, endPoint)` pair. -/
theorem collectEdges_no_bridges (src : EdgeSource) (es : Edges) (acc : Edges × Edges)
    (h : ∀ e ∈ es, src.isBridge (src.pointIndex e.1) (src.pointIndex e.2) = false) :
    es.foldl (collectStep src) acc =
      (acc.1, acc.2 ++ es.map (fun e => (e.1, src.pointIndex e.2))) := by
  induction es generalizing acc with
  | nil => simp
  | cons e es ih =>
    have he : src.isBridge (src.pointIndex e.1) (src.pointIndex e.2) = false :=
      h e (List.mem_cons_self e es)
    have hrest : ∀ x ∈ es, src.isBridge (src.pointIndex x.1) (src.pointIndex x.2) = false :=
      fun x hx => h x (List.mem_cons_of_mem e hx)
    simp only [List.foldl_cons, collectStep, he, Bool.false_eq_true, if_false]
    rw [ih _ hrest]
    simp

/-- C2: for every edge source whose `isBridge` predicate holds for no edge of
the polygon, `extractHoles` returns exactly one ring, and that ring contains
the start-vertex index of every edge, in the edges' traversal order. -/
theorem extractHoles_no_bridges_single_ring (src : EdgeSource)
    (h : ∀ e ∈ src.edges, src.isBridge (src.pointIndex e.1) (src.pointIndex e.2) = false) :
    extractHoles src = some [src.edges.map Prod.fst] := by
  unfold extractHoles collectEdges
  rw [collectEdges_no_bridges src src.edges ([], []) h]
  simp [List.map_map]

/-- Witness for C2 at a concrete bridge-free triangle. -/
theorem extractHoles_no_bridges_single_ring_witness :
    extractHoles triSource = some [[0, 1, 2]] := by
  have h := extractHoles_no_bridges_single_ring triSource (by decide)
  simpa [triSource] using h

/-- Helper: the reversed direction of an edge is undirected-equivalent to it. -/
theorem undirectedEq_swap (a b : Int) : undirectedEq (a, b) (b, a) = true := by
  unfold undirectedEq canonEdge
  rcases lt_trichotomy a b with h | h | h
  · simp [not_lt.mpr (le_of_lt h), h]
  · simp [h]
  · simp [h, not_lt.mpr (le_of_lt h)]

/-- Helper: `insertBridge` preserves undirected-duplicate-freeness. -/
theorem insertBridge_pairwise (brs : Edges) (e : Edge)
    (h : brs.Pairwise (fun x y => undirectedEq x y = false)) :
    (insertBridge brs e).Pairwise (fun x y => undirectedEq x y = false) := by
  unfold insertBridge
  split
  · exact h
  · next hne =>
    rw [List.pairwise_append]
    refine ⟨h, List.pairwise_singleton _ _, ?_⟩
    intro x hx y hy
    rw [List.mem_singleton] at hy
    subst hy
    rw [List.any_eq_true] at hne
    push_neg at hne
    simpa using hne x hx

/-- Helper: the bridge accumulator of the collection fold stays free of
undirected duplicates. -/
theorem collect_fold_pairwise (src : EdgeSource) (es : Edges) (acc : Edges × Edges)
    (h : acc.1.Pairwise (fun x y => undirectedEq x y = false)) :
    (es.foldl (collectStep src) acc).1.Pairwise (fun x y => undirectedEq x y = false) := by
  induction es generalizing acc with
  | nil => simpa using h
  | cons e es ih =>
    rw [List.foldl_cons]
    apply ih
    simp only [collectStep]
    split
    · exact insertBridge_pairwise _ _ h
    · exact h

/-- C7 (amended): bridges are stored undirected — inserting the reversed
direction of an already-stored bridge is a no-op, and the bridge set built by
`extractHoles`' collection loop never holds two undirected-equivalent
entries.  (The ring structure, however, does depend on which direction of a
bridge is traversed first; see the counterexample.) -/
theorem bridges_stored_undirected :
    (∀ (brs : Edges) (a b : Int), (a, b) ∈ brs → insertBridge brs (b, a) = brs) ∧
    (∀ src : EdgeSource,
      (collectEdges src).1.Pairwise (fun x y => undirectedEq x y = false)) := by
  constructor
  · intro brs a b hmem
    unfold insertBridge
    rw [if_pos]
    rw [List.any_eq_true]
    exact ⟨(a, b), hmem, undirectedEq_swap a b⟩
  · intro src
    exact collect_fold_pairwise src src.edges ([], []) (by simp)

/-- Witness for C7 (amended) at concrete inputs. -/
theorem bridges_stored_undirected_witness :
    insertBridge [((0 : Int), (4 : Int))] (4, 0) = [(0, 4)] ∧
    (collectEdges bridgeDirASource).1.Pairwise (fun x y => undirectedEq x y = false) :=
  ⟨bridges_stored_undirected.1 [(0, 4)] 0 4 (by decide),
   bridges_stored_undirected.2 bridgeDirASource⟩

/-- C7 (counterexample): two edge sources identical except for which
direction of the bridge `{2,6}` is traversed first produce different ring
structures — the stored bridge direction decides whether the walk pushes
into a hole or pops out of one. -/
theorem extractHoles_bridge_direction_dependent :
    extractHoles bridgeDirASource = some [[10, 12], [11]] ∧
    extractHoles bridgeDirBSource = some [[10], [11], [12]] ∧
    extractHoles bridgeDirASource ≠ extractHoles bridgeDirBSource := by
  refine ⟨by decide, by decide, ?_⟩
  intro h
  rw [show extractHoles bridgeDirASource = some [[10, 12], [11]] from by decide,
      show extractHoles bridgeDirBSource = some [[10], [11], [12]] from by decide] at h
  simp at h


/-- Helper: appending one element to the ring at index `i` permutes the
joined ring contents by consing that element. -/
theorem flatten_set_append_perm (l : List (List Int)) (i : Nat) (v : Int)
    (h : i < l.length) :
    List.Perm (l.set i (l.getD i [] ++ [v])).flatten (v :: l.flatten) := by
  induction l generalizing i with
  | nil => simp at h
  | cons x xs ih =>
    cases i with
    | zero =>
      simp only [List.set_cons_zero, List.getD_cons_zero, List.flatten_cons,
        List.append_assoc, List.singleton_append]
      exact List.perm_middle
    | succ j =>
      have hj : j < xs.length := by simpa using h
      simp only [List.set_cons_succ, List.getD_cons_succ, List.flatten_cons]
      exact ((ih j hj).append_left x).trans List.perm_middle

/-- Helper: a successful `appendAt` permutes the joined rings by consing the
new vertex. -/
theorem appendAt_flatten_perm (rings r2 : FaceWithHoles) (i : Int) (v : Int)
    (h : appendAt rings i v = some r2) :
    List.Perm r2.flatten (v :: rings.flatten) := by
  unfold appendAt at h
  split at h
  · next hb =>
    injection h with h
    subst h
    exact flatten_set_append_perm rings i.toNat v hb.2
  · exact absurd h (by simp)

/-- Helper: every successful `detectStep` permutes the joined rings by
consing the processed edge's start vertex. -/
theorem detectStep_flatten_perm (bridges : Edges) (st : FaceWithHoles × Int)
    (e : Edge) (st2 : FaceWithHoles × Int) (h : detectStep bridges st e = some st2) :
    List.Perm st2.1.flatten (e.1 :: st.1.flatten) := by
  unfold detectStep at h
  split at h
  · rcases Option.map_eq_some'.mp h with ⟨rings, hap, hst⟩
    have hp := appendAt_flatten_perm st.1 rings st.2 e.1 hap
    have h2 : st2.1 = rings ++ [[]] := by rw [← hst]
    rw [h2]
    simpa using hp
  · split at h
    · rcases Option.map_eq_some'.mp h with ⟨rings, hap, hst⟩
      have hp := appendAt_flatten_perm st.1 rings st.2 e.1 hap
      have h2 : st2.1 = rings := by rw [← hst]
      rw [h2]
      exact hp
    · rcases Option.map_eq_some'.mp h with ⟨rings, hap, hst⟩
      have hp := appendAt_flatten_perm st.1 rings st.2 e.1 hap
      have h2 : st2.1 = rings := by rw [← hst]
      rw [h2]
      exact hp

/-- Helper: the full ring-stack walk permutes the joined rings into the
start-vertex sequence appended to whatever was already there. -/
theorem detect_fold_flatten_perm (bridges : Edges) (svs : Edges)
    (st st2 : FaceWithHoles × Int)
    (h : svs.foldlM (detectStep bridges) st = some st2) :
    List.Perm st2.1.flatten (st.1.flatten ++ svs.map Prod.fst) := by
  induction svs generalizing st with
  | nil =>
    simp only [List.foldlM_nil] at h
    injection h with h
    subst h
    simp
  | cons e es ih =>
    rw [List.foldlM_cons] at h
    cases hstep : detectStep bridges st e with
    | none => rw [hstep] at h; exact absurd h (by simp)
    | some st1 =>
      rw [hstep] at h
      simp at h
      have h1 := detectStep_flatten_perm bridges st e st1 hstep
      have h2 := ih st1 h
      have h3 : List.Perm (st1.1.flatten ++ es.map Prod.fst)
          ((e.1 :: st.1.flatten) ++ es.map Prod.fst) := h1.append_right _
      refine (h2.trans (h3.trans ?_))
      simp only [List.cons_append]
      exact (List.perm_middle).symm

/-- C10 (amended): whenever extraction completes, the rings partition the
non-bridge start-vertex indices — their joined contents are a permutation of
the traversal-order start-vertex sequence, and the total index count across
all rings equals the number of non-bridge edges. -/
theorem extractHoles_rings_partition (src : EdgeSource) (rings : FaceWithHoles)
    (h : extractHoles src = some rings) :
    List.Perm rings.flatten ((collectEdges src).2.map Prod.fst) ∧
    (rings.map List.length).sum = (collectEdges src).2.length := by
  unfold extractHoles at h
  split at h
  · injection h with h
    subst h
    constructor
    · simp
    · simp
  · unfold detectFaceAndHoles at h
    rcases Option.map_eq_some'.mp h with ⟨st2, hfold, hst⟩
    have hperm := detect_fold_flatten_perm (collectEdges src).1 (collectEdges src).2
      ([[]], 0) st2 hfold
    rw [hst] at hperm
    simp only [List.flatten_cons, List.flatten_nil, List.nil_append] at hperm
    refine ⟨hperm, ?_⟩
    have hlen := hperm.length_eq
    simpa [List.length_flatten] using hlen

/-- Witness for C10 (amended) at the concrete hole polygon. -/
theorem extractHoles_rings_partition_witness :
    List.Perm ([[0, 1, 2], [4, 5]] : FaceWithHoles).flatten
      ((collectEdges holeReturnSource).2.map Prod.fst) ∧
    (([[0, 1, 2], [4, 5]] : FaceWithHoles).map List.length).sum =
      (collectEdges holeReturnSource).2.length :=
  extractHoles_rings_partition holeReturnSource [[0, 1, 2], [4, 5]] (by decide)

/-- C10 (counterexample): for the hole polygon whose walk returns to the
outer ring, concatenating the extracted rings (outer first, then holes) does
not reproduce the traversal-order start-vertex sequence of the non-bridge
edges. -/
theorem extractHoles_concatenation_not_traversal_order :
    extractHoles holeReturnSource = some [[0, 1, 2], [4, 5]] ∧
    (collectEdges holeReturnSource).2.map Prod.fst = [0, 4, 5, 1, 2] ∧
    ([[0, 1, 2], [4, 5]] : FaceWithHoles).flatten ≠ [0, 4, 5, 1, 2] := by
  refine ⟨by decide, by decide, by decide⟩

/-- Helper: the ring loop leaves the UV sets untouched. -/
theorem ringFold_uvSets (prim : PolyPrim) (fwh : FaceWithHoles) (ch : ConversionHelper α) :
    (fwh.foldl (ringStep prim) ch).uvSets = ch.uvSets := by
  induction fwh generalizing ch with
  | nil => rfl
  | cons r rs ih =>
    rw [List.foldl_cons, ih]
    rfl

/-- Helper: face counts accumulated by the ring loop. -/
theorem ringFold_faceCounts (prim : PolyPrim) (fwh : FaceWithHoles) (ch : ConversionHelper α) :
    (fwh.foldl (ringStep prim) ch).faceCounts = ch.faceCounts ++ fwh.map List.length := by
  induction fwh generalizing ch with
  | nil => simp
  | cons r rs ih =>
    rw [List.foldl_cons, ih]
    simp [ringStep]

/-- Helper: hole-delimiter entries accumulated by the ring loop — one entry
per ring, each the face-count-array index at the moment the ring is seen. -/
theorem ringFold_holes (prim : PolyPrim) (fwh : FaceWithHoles) (ch : ConversionHelper α) :
    (fwh.foldl (ringStep prim) ch).holes =
      ch.holes ++ (List.range fwh.length).map (fun i => ch.faceCounts.length + i) := by
  induction fwh generalizing ch with
  | nil => simp
  | cons r rs ih =>
    rw [List.foldl_cons, ih]
    simp only [ringStep, List.length_append, List.length_cons, List.length_range,
      List.range_succ_eq_map, List.map_cons, List.map_map, List.append_assoc,
      List.cons_append, List.nil_append, List.singleton_append, Nat.add_zero]
    congr 2
    apply List.map_congr_left
    intro i _
    simp only [Function.comp_apply, List.length_nil]
    omega

/-- Helper: point indices accumulated by the ring loop — each ring's point
indices in reversed traversal order, rings concatenated. -/
theorem ringFold_indices (prim : PolyPrim) (fwh : FaceWithHoles) (ch : ConversionHelper α) :
    (fwh.foldl (ringStep prim) ch).indices =
      ch.indices ++ (fwh.map (fun r => r.reverse.map prim.getPointIndex)).flatten := by
  induction fwh generalizing ch with
  | nil => simp
  | cons r rs ih =>
    rw [List.foldl_cons, ih]
    simp [ringStep]

/-- C3 (counterexample): converting a plain polygon with a single ring (no
holes at all) still emits a hole-delimiter entry (for the outer ring) before
the sentinel, so entries are not emitted only for held (hole) rings. -/
theorem convertPolygon_outer_ring_delimiter_entry :
    extractHoles triPrim.src = some [[0, 1, 2]] ∧
    (convertPolygonPrim chEmpty triPrim []).map (fun c => c.holes) =
      some [0, 4294967295] :=
  ⟨by decide, by decide⟩

/-- C3 (amended): the plain-polygon overload of `convertPolygon` emits one
hole-delimiter entry (the current index into the per-partition face-count
array) for the outer ring and for every held (hole) ring, and appends the
sentinel `0xFFFFFFFF` once per primitive after them; the polygon-soup
overload emits a single face and contributes nothing to the hole-delimiter
array. -/
theorem convertPolygon_hole_delimiters {α : Type} :
    (∀ (ch : ConversionHelper α) (prim : PolyPrim) (uvHandles : List (Option (UVHandle α)))
        (fwh : FaceWithHoles), extractHoles prim.src = some fwh →
      (convertPolygonPrim ch prim uvHandles).map (fun c => (c.holes, c.faceCounts)) =
        some (ch.holes ++ (List.range fwh.length).map (fun i => ch.faceCounts.length + i)
                ++ [4294967295],
              ch.faceCounts ++ fwh.map List.length)) ∧
    (∀ (ch : ConversionHelper α) (prim : SoupPoly) (uvHandles : List (Option (UVHandle α))),
      (convertPolygonSoup ch prim uvHandles).holes = ch.holes ∧
      (convertPolygonSoup ch prim uvHandles).faceCounts = ch.faceCounts ++ [prim.vtxCnt]) := by
  constructor
  · intro ch prim uvHandles fwh h
    simp only [convertPolygonPrim, h, Option.map_some]
    rw [ringFold_holes, ringFold_faceCounts]
    simp
  · intro ch prim uvHandles
    constructor
    · rfl
    · rfl

/-- Witness for C3 (amended) at the concrete triangle. -/
theorem convertPolygon_hole_delimiters_witness :
    (convertPolygonPrim chEmpty triPrim []).map (fun c => (c.holes, c.faceCounts)) =
      some ([0, 4294967295], [3]) := by
  have h := (convertPolygon_hole_delimiters (α := Unit)).1 chEmpty triPrim [] [[0, 1, 2]]
    (by decide)
  simpa [chEmpty] using h

/-- C6: both `convertPolygon` overloads emit each face's vertex indices in
reversed order relative to the host winding — per ring for a plain polygon,
and for the single face of a polygon-soup constituent polygon. -/
theorem convertPolygon_reverses_winding {α : Type} :
    (∀ (ch : ConversionHelper α) (prim : PolyPrim) (uvHandles : List (Option (UVHandle α)))
        (fwh : FaceWithHoles), extractHoles prim.src = some fwh →
      (convertPolygonPrim ch prim uvHandles).map (fun c => c.indices) =
        some (ch.indices ++ (fwh.map (fun r => (r.map prim.getPointIndex).reverse)).flatten)) ∧
    (∀ (ch : ConversionHelper α) (prim : SoupPoly) (uvHandles : List (Option (UVHandle α))),
      (convertPolygonSoup ch prim uvHandles).indices =
        ch.indices ++ ((List.range prim.vtxCnt).map prim.getPointIndex).reverse) := by
  constructor
  · intro ch prim uvHandles fwh h
    simp only [convertPolygonPrim, h, Option.map_some]
    rw [ringFold_indices]
    simp [List.map_reverse]
  · intro ch prim uvHandles
    simp [convertPolygonSoup, List.map_reverse]

/-- Witness for C6: the host triangle with point-index order (0,1,2)
produces the initial-shape index sequence (2,1,0). -/
theorem convertPolygon_reverses_winding_witness :
    (convertPolygonPrim chEmpty triPrim []).map (fun c => c.indices) = some [2, 1, 0] := by
  have h := (convertPolygon_reverses_winding (α := Unit)).1 chEmpty triPrim [] [[0, 1, 2]]
    (by decide)
  rw [h]
  decide

/-- Helper: one centroid accumulation step depends on the index array entry
only through the referenced coordinate triple. -/
theorem centStep_refTriple (coords : List ℚ) (a : ℚ × ℚ × ℚ) (i : Nat) :
    centStep coords a i =
      (a.1 + (refTriple coords i).1, a.2.1 + (refTriple coords i).2.1,
       a.2.2 + (refTriple coords i).2.2) := rfl

/-- Helper: the centroid accumulation fold depends only on the sequence of
referenced coordinate triples. -/
theorem centroid_fold_congr (c1 c2 : List ℚ) (i1 : List Nat) :
    ∀ (i2 : List Nat), i1.map (refTriple c1) = i2.map (refTriple c2) →
      ∀ acc : ℚ × ℚ × ℚ, i1.foldl (centStep c1) acc = i2.foldl (centStep c2) acc := by
  induction i1 with
  | nil =>
    intro i2 h acc
    cases i2 with
    | nil => rfl
    | cons b bs => simp at h
  | cons a as ih =>
    intro i2 h acc
    cases i2 with
    | nil => simp at h
    | cons b bs =>
      simp only [List.map_cons, List.cons.injEq] at h
      rw [List.foldl_cons, List.foldl_cons, centStep_refTriple, centStep_refTriple, h.1]
      exact ih bs h.2 _

/-- Helper: the centroid depends only on the sequence of referenced
coordinate triples. -/
theorem getCentroid_congr (c1 c2 : List ℚ) (i1 i2 : List Nat)
    (h : i1.map (refTriple c1) = i2.map (refTriple c2)) :
    getCentroid c1 i1 = getCentroid c2 i2 := by
  have hlen : i1.length = i2.length := by
    have := congrArg List.length h
    simpa using this
  unfold getCentroid
  rw [centroid_fold_congr c1 c2 i1 i2 h (0, 0, 0), hlen]

/-- C4: a partition's random seed is the explicit integer-storage seed
attribute when present; otherwise it is the 32-bit truncation of the
boost-style hash-combination of the hashes of the x, y, z centroid
coordinates — and two partitions referencing identical coordinates (with no
explicit seed) derive identical seeds. -/
theorem getRandomSeed_spec :
    (∀ (hashDouble : ℚ → Nat) (coords : List ℚ) (indices : List Nat) (v : Int),
      getRandomSeed (some v) hashDouble coords indices = v) ∧
    (∀ (hashDouble : ℚ → Nat) (coords : List ℚ) (indices : List Nat),
      getRandomSeed none hashDouble coords indices =
        toInt32 (hash_combine (hash_combine (hash_combine 0
          (hashDouble (getCentroid coords indices).1))
          (hashDouble (getCentroid coords indices).2.1))
          (hashDouble (getCentroid coords indices).2.2))) ∧
    (∀ (hashDouble : ℚ → Nat) (c1 c2 : List ℚ) (i1 i2 : List Nat),
      i1.map (refTriple c1) = i2.map (refTriple c2) →
      getRandomSeed none hashDouble c1 i1 = getRandomSeed none hashDouble c2 i2) := by
  refine ⟨fun _ _ _ _ => rfl, fun _ _ _ => rfl, ?_⟩
  intro hashDouble c1 c2 i1 i2 h
  unfold getRandomSeed
  rw [getCentroid_congr c1 c2 i1 i2 h]

/-- Witness for C4 at concrete inputs. -/
theorem getRandomSeed_spec_witness :
    getRandomSeed (some 42) (fun _ => 0) [] [] = 42 ∧
    getRandomSeed none (fun _ => 0) [(1 : ℚ), 2, 3] [0] =
      getRandomSeed none (fun _ => 0) [(1 : ℚ), 2, 3] [0] :=
  ⟨getRandomSeed_spec.1 (fun _ => 0) [] [] 42,
   getRandomSeed_spec.2.2 (fun _ => 0) [(1 : ℚ), 2, 3] [(1 : ℚ), 2, 3] [0] [0] rfl⟩

/-- C1: a `getResolveMap` call whose cache lookup reports `MISS` performs
exactly one full flush of the engine's default object cache and — outside of
test builds — exactly one recook-scheduling pass for the requested package
path before returning the looked-up map; a call whose lookup reports `HIT`
performs neither side effect. -/
theorem getResolveMap_miss_hit_effects {ρ : Type} (testExports : Bool)
    (lookupResult : ρ × CacheStatus) (rpk : String) (st : PRTEngineState) :
    ((getResolveMap testExports lookupResult rpk st).1 = lookupResult.1) ∧
    (lookupResult.2 = CacheStatus.MISS →
      (getResolveMap testExports lookupResult rpk st).2.flushCount = st.flushCount + 1 ∧
      (testExports = false →
        (getResolveMap testExports lookupResult rpk st).2.recookedPaths =
          st.recookedPaths ++ [rpk]) ∧
      (testExports = true →
        (getResolveMap testExports lookupResult rpk st).2.recookedPaths =
          st.recookedPaths)) ∧
    (lookupResult.2 = CacheStatus.HIT →
      (getResolveMap testExports lookupResult rpk st).2 = st) := by
  obtain ⟨rm, status⟩ := lookupResult
  cases status <;> cases testExports <;> simp [getResolveMap]

/-- Witness for C1 at a concrete miss and a concrete hit. -/
theorem getResolveMap_miss_hit_effects_witness :
    (getResolveMap false ((0 : Nat), CacheStatus.MISS) "pkg.rpk" ⟨0, []⟩).2.flushCount =
      0 + 1 ∧
    (getResolveMap false ((0 : Nat), CacheStatus.MISS) "pkg.rpk" ⟨0, []⟩).2.recookedPaths =
      [] ++ ["pkg.rpk"] ∧
    (getResolveMap false ((0 : Nat), CacheStatus.HIT) "pkg.rpk" ⟨0, []⟩).2 = ⟨0, []⟩ := by
  have h1 := getResolveMap_miss_hit_effects false ((0 : Nat), CacheStatus.MISS) "pkg.rpk" ⟨0, []⟩
  have h2 := getResolveMap_miss_hit_effects false ((0 : Nat), CacheStatus.HIT) "pkg.rpk" ⟨0, []⟩
  exact ⟨(h1.2.1 rfl).1, (h1.2.1 rfl).2.1 rfl, h2.2.2 rfl⟩

/-- C9: `generateError` records the status into the per-initial-shape status
array at the given index, logs one line at warning severity, and returns
`STATUS_OK`; the three CGA report callbacks change no state and return
`STATUS_OK`. -/
theorem modelConverter_error_callbacks :
    (∀ (st : MCState) (isIndex : Nat) (status : PrtStatus) (message : String),
      (generateError st isIndex status message).1 = STATUS_OK ∧
      (generateError st isIndex status message).2.statuses = st.statuses.set isIndex status ∧
      (isIndex < st.statuses.length →
        (generateError st isIndex status message).2.statuses.getD isIndex 0 = status) ∧
      (generateError st isIndex status message).2.logLines =
        st.logLines ++ [(LogLevel.lwarning, message)]) ∧
    (∀ (st : MCState) (isIndex : Nat) (shapeID : Int) (key : String) (value : Bool),
      cgaReportBool st isIndex shapeID key value = (STATUS_OK, st)) ∧
    (∀ (st : MCState) (isIndex : Nat) (shapeID : Int) (key : String) (value : ℚ),
      cgaReportFloat st isIndex shapeID key value = (STATUS_OK, st)) ∧
    (∀ (st : MCState) (isIndex : Nat) (shapeID : Int) (key : String) (value : String),
      cgaReportString st isIndex shapeID key value = (STATUS_OK, st)) := by
  refine ⟨?_, fun _ _ _ _ _ => rfl, fun _ _ _ _ _ => rfl, fun _ _ _ _ _ => rfl⟩
  intro st isIndex status message
  refine ⟨rfl, rfl, ?_, rfl⟩
  intro h
  simp [generateError, List.getD, List.getElem?_set_self, h]

/-- Witness for C9 at concrete inputs. -/
theorem modelConverter_error_callbacks_witness :
    (generateError ⟨[7, 7], []⟩ 0 3 "one shape failed").1 = STATUS_OK ∧
    (generateError ⟨[7, 7], []⟩ 0 3 "one shape failed").2.statuses.getD 0 0 = 3 ∧
    cgaReportBool ⟨[7, 7], []⟩ 1 5 "report" true = (STATUS_OK, ⟨[7, 7], []⟩) :=
  ⟨(modelConverter_error_callbacks.1 ⟨[7, 7], []⟩ 0 3 "one shape failed").1,
   (modelConverter_error_callbacks.1 ⟨[7, 7], []⟩ 0 3 "one shape failed").2.2.1 (by decide),
   modelConverter_error_callbacks.2.1 ⟨[7, 7], []⟩ 1 5 "report" true⟩

/-- Helper: the material-conversion fold is the filterMap of its per-key
action. -/
theorem convertMaterial_foldl_filterMap (b : Bool) (mat : String → MatValue)
    (keys : List String) (acc : List (String × AttrValue)) :
    keys.foldl (fun acc key =>
      if (MATERIAL_ATTRIBUTE_BLACKLIST b).contains key then acc
      else
        match convertEntry (mat key) with
        | some v => acc ++ [(key, v)]
        | none => acc) acc =
      acc ++ keys.filterMap (fun k =>
        if (MATERIAL_ATTRIBUTE_BLACKLIST b).contains k then none
        else (convertEntry (mat k)).map (fun v => (k, v))) := by
  induction keys generalizing acc with
  | nil => simp
  | cons k ks ih =>
    rw [List.foldl_cons, List.filterMap_cons]
    by_cases hb : (MATERIAL_ATTRIBUTE_BLACKLIST b).contains k = true
    · simp only [hb, if_true]
      rw [ih]
    · simp only [Bool.not_eq_true] at hb
      simp only [hb, Bool.false_eq_true, if_false]
      cases hconv : convertEntry (mat k) with
      | none =>
        rw [ih]
        simp
      | some v =>
        rw [ih]
        simp

/-- C8: converting a material drops every blacklisted key and retains every
non-blacklisted key of a supported type with value and type unchanged,
textures serialized as their URI string. -/
theorem convertMaterialToAttributeMap_blacklist (b : Bool) (mat : String → MatValue)
    (keys : List String) :
    (∀ k ∈ keys, (MATERIAL_ATTRIBUTE_BLACKLIST b).contains k = true →
      ∀ v, (k, v) ∉ convertMaterialToAttributeMap b mat keys) ∧
    (∀ k ∈ keys, (MATERIAL_ATTRIBUTE_BLACKLIST b).contains k = false →
      ∀ v, convertEntry (mat k) = some v →
        (k, v) ∈ convertMaterialToAttributeMap b mat keys) ∧
    (∀ uri, convertEntry (MatValue.vtexture uri) = some (AttrValue.astr uri)) := by
  have hrep : convertMaterialToAttributeMap b mat keys =
      keys.filterMap (fun k =>
        if (MATERIAL_ATTRIBUTE_BLACKLIST b).contains k then none
        else (convertEntry (mat k)).map (fun v => (k, v))) := by
    unfold convertMaterialToAttributeMap
    rw [convertMaterial_foldl_filterMap]
    simp
  refine ⟨?_, ?_, fun _ => rfl⟩
  · intro k hk hbl v hmem
    rw [hrep, List.mem_filterMap] at hmem
    obtain ⟨a, _, hfa⟩ := hmem
    by_cases hba : (MATERIAL_ATTRIBUTE_BLACKLIST b).contains a = true
    · rw [if_pos hba] at hfa
      exact absurd hfa (by simp)
    · rw [if_neg hba] at hfa
      rcases Option.map_eq_some'.mp hfa with ⟨w, _, heq⟩
      have ha : a = k := congrArg Prod.fst heq
      rw [ha] at hba
      exact hba hbl
  · intro k hk hbl v hv
    rw [hrep, List.mem_filterMap]
    refine ⟨k, hk, ?_⟩
    rw [if_neg (by rw [hbl]; simp), hv]
    rfl

/-- Witness for C8 on the fixture keys from the specification. -/
theorem convertMaterialToAttributeMap_blacklist_witness :
    ("diffuseColor", AttrValue.astr "diffuseColor") ∈
      convertMaterialToAttributeMap true (fun k => MatValue.vstr k)
        ["color.r", "diffuseColor", "bumpmap.su"] ∧
    ("color.r", AttrValue.astr "color.r") ∉
      convertMaterialToAttributeMap true (fun k => MatValue.vstr k)
        ["color.r", "diffuseColor", "bumpmap.su"] ∧
    ("bumpmap.su", AttrValue.astr "bumpmap.su") ∉
      convertMaterialToAttributeMap true (fun k => MatValue.vstr k)
        ["color.r", "diffuseColor", "bumpmap.su"] := by
  have h := convertMaterialToAttributeMap_blacklist true (fun k => MatValue.vstr k)
    ["color.r", "diffuseColor", "bumpmap.su"]
  exact ⟨h.2.1 "diffuseColor" (by decide) (by decide) (AttrValue.astr "diffuseColor") rfl,
         h.1 "color.r" (by decide) (by decide) (AttrValue.astr "color.r"),
         h.1 "bumpmap.su" (by decide) (by decide) (AttrValue.astr "bumpmap.su")⟩

/-- Helper: indexing into a mapped range. -/
theorem getD_range_map {β : Type} (n s : Nat) (f : Nat → β) (d : β) (h : s < n) :
    ((List.range n).map f).getD s d = f s := by
  rw [List.getD_eq_getElem?_getD, List.getElem?_map, List.getElem?_range h]
  rfl

/-- Helper: `appendMesh` keeps the number of UV channels. -/
theorem appendMesh_uvs_length (st : CopyState α) (m : Mesh α) :
    (appendMesh st m).sg.uvs.length = st.sg.uvs.length := by
  simp [appendMesh]

/-- Helper: pass 2 keeps the number of UV channels fixed by pass 1. -/
theorem foldl_appendMesh_uvs_length (ms : List (Mesh α)) (st : CopyState α) :
    ((ms.foldl appendMesh st).sg.uvs).length = st.sg.uvs.length := by
  induction ms generalizing st with
  | nil => rfl
  | cons m ms ih => rw [List.foldl_cons, ih, appendMesh_uvs_length]

/-- Helper: for a channel at or above the mesh's own UV-set count, the
contributed coordinates are those of channel 0. -/
theorem meshChannelSrc_ge (m : Mesh α) (s : Nat) (hge : m.uvSets.length ≤ s) :
    meshChannelSrc m s = meshChannelSrc m 0 := by
  have hns : ¬ s < m.uvSets.length := Nat.not_lt.mpr hge
  by_cases h0 : 0 < m.uvSets.length
  · simp [meshChannelSrc, hns, h0, ite_self]
  · simp [meshChannelSrc, hns, h0]

/-- Helper: for a channel at or above the mesh's own UV-set count, the
contributed per-face counts are those of channel 0. -/
theorem meshChannelCounts_ge (m : Mesh α) (s : Nat) (hge : m.uvSets.length ≤ s) :
    meshChannelCounts m s = meshChannelCounts m 0 := by
  have hns : ¬ s < m.uvSets.length := Nat.not_lt.mpr hge
  simp only [meshChannelCounts]
  rw [if_neg (fun hc => hns hc.1)]
  by_cases hc : 0 < m.uvSets.length ∧
      ¬(if 0 < m.uvSets.length then m.getUVCoords 0 else []).isEmpty = true
  · rw [if_pos hc, if_pos hc.1]
  · rw [if_neg hc]

/-- Helper: for a channel at or above the mesh's own UV-set count, the
contributed index pattern is that of channel 0. -/
theorem meshChannelIdxPattern_ge (m : Mesh α) (s : Nat) (hge : m.uvSets.length ≤ s) :
    meshChannelIdxPattern m s = meshChannelIdxPattern m 0 := by
  have hns : ¬ s < m.uvSets.length := Nat.not_lt.mpr hge
  simp only [meshChannelIdxPattern]
  rw [meshChannelCounts_ge m s hge]
  congr 1
  apply List.map_congr_left
  intro fi _
  rw [if_neg (fun hc => hns hc.1)]
  by_cases hc : 0 < m.uvSets.length ∧
      ¬(if 0 < m.uvSets.length then m.getUVCoords 0 else []).isEmpty = true
  · rw [if_pos hc, if_pos hc.1]
  · rw [if_neg hc]

/-- Helper: one `appendMesh` step fills a channel at or above the mesh's own
UV-set count with a copy of the mesh's channel-0 data, indices offset by
that channel's running index base. -/
theorem appendMesh_channel_backfill (st : CopyState α) (m : Mesh α) (s : Nat)
    (hs : s < st.sg.uvs.length) (hge : m.uvSets.length ≤ s) :
    (appendMesh st m).sg.uvs.getD s [] = st.sg.uvs.getD s [] ++ meshChannelSrc m 0 ∧
    (appendMesh st m).sg.uvCounts.getD s [] =
      st.sg.uvCounts.getD s [] ++ meshChannelCounts m 0 ∧
    (appendMesh st m).sg.uvIndices.getD s [] =
      st.sg.uvIndices.getD s [] ++
        (meshChannelIdxPattern m 0).map (fun i => st.uvIndexBases.getD s 0 + i) := by
  refine ⟨?_, ?_, ?_⟩
  · simp only [appendMesh]
    rw [getD_range_map _ _ _ _ hs, meshChannelSrc_ge m s hge]
  · simp only [appendMesh]
    rw [getD_range_map _ _ _ _ hs, meshChannelCounts_ge m s hge]
  · simp only [appendMesh]
    rw [getD_range_map _ _ _ _ hs, meshChannelIdxPattern_ge m s hge]

/-- C5: the serialized output has exactly as many UV channels as the maximum
over all meshes of the larger of the mesh's own UV-set count and the UV sets
required by its material's valid textures; and each pass-2 mesh step fills
every channel at or above the mesh's own UV-set count with a copy of the
mesh's UV set 0 data (coordinates, per-face counts, and indices offset by
that channel's running index base). -/
theorem serializeGeometry_uv_channels {α : Type} (prtVersionGT1 : Bool) :
    (∀ (geometries : List (List (Mesh α))) (materials : List (List MaterialModel)),
      (serializeGeometry prtVersionGT1 geometries materials).uvs.length =
        (((geometries.zip materials).map (fun gm =>
          (gm.1.zip gm.2).map (fun mm =>
            max mm.1.uvSets.length (scanValidTextures prtVersionGT1 mm.2)))).flatten).foldl
          max 0) ∧
    (∀ (st : CopyState α) (m : Mesh α) (s : Nat),
      s < st.sg.uvs.length → m.uvSets.length ≤ s →
      (appendMesh st m).sg.uvs.getD s [] = st.sg.uvs.getD s [] ++ meshChannelSrc m 0 ∧
      (appendMesh st m).sg.uvCounts.getD s [] =
        st.sg.uvCounts.getD s [] ++ meshChannelCounts m 0 ∧
      (appendMesh st m).sg.uvIndices.getD s [] =
        st.sg.uvIndices.getD s [] ++
          (meshChannelIdxPattern m 0).map (fun i => st.uvIndexBases.getD s 0 + i)) := by
  constructor
  · intro geos mats
    simp only [serializeGeometry]
    rw [foldl_appendMesh_uvs_length]
    simp [SerializedGeometry.init, maxNumUVSets]
  · intro st m s hs hge
    exact appendMesh_channel_backfill st m s hs hge

/-- Witness for C5 on the specification's two-mesh fixture (mesh 1 with UV
set 0 only, mesh 2 with UV sets 0 and 1, no textures). -/
theorem serializeGeometry_uv_channels_witness :
    (serializeGeometry false [[meshOneUV, meshTwoUV]] [[matNoTex, matNoTex]]).uvs.length =
      2 ∧
    (appendMesh stTwoChannels meshOneUV).sg.uvs.getD 1 [] = [1, 2, 3, 4, 5, 6] ∧
    (appendMesh stTwoChannels meshOneUV).sg.uvCounts.getD 1 [] = [3] ∧
    (appendMesh stTwoChannels meshOneUV).sg.uvIndices.getD 1 [] = [2, 1, 0] := by
  have h1 := (serializeGeometry_uv_channels (α := Nat) false).1 [[meshOneUV, meshTwoUV]]
    [[matNoTex, matNoTex]]
  have h2 := (serializeGeometry_uv_channels (α := Nat) false).2 stTwoChannels meshOneUV 1
    (by decide) (by decide)
  refine ⟨?_, ?_, ?_, ?_⟩
  · rw [h1]; decide
  · rw [h2.1]; decide
  · rw [h2.2.1]; decide
  · rw [h2.2.2]; decide
